import Mathlib

/-!
Verification development for sonm-monitoring-tools.

Shallow embedding of the snapshot-aggregation core of `map-proxy/main.go`
(current revision: `loadDeals`, `loadPeersData`, the green/blue `cache`, the
ticker loop and the publish handler) together with the geolocation-counting
loops of `rv-mon/main.go` and its unnamed variant.

Modelling conventions:
  * Go `map[string]T` values are association lists; a nil map is `none` in
    `Option`.  Map assignment `m[k] = v` is `mapInsert` (overwrite or append).
  * Go `uint64` additions wrap, modelled as `Nat` addition followed by
    `% 2^64`.  Deal prices are `math/big` integers, modelled as `Int`.
  * Go `float64` coordinate and income values are modelled as exact `Rat`;
    the single final `big.Float` normalization in `loadDeals` is the exact
    rational division by `params.Ether = 10^18`.
  * The external collaborators (rendezvous `Info`, DWH `GetDeals`, geoip
    `City`, `common.HexToAddress(..).Hex()`, `geohash.Encode`) are oracles
    carried in an environment record; `none` models a call that errors.
-/

namespace SonmMon

/-- Go struct `PeerPoint` (map-proxy/main.go). -/
structure PeerPoint where
  Lat : Rat
  Lon : Rat
  Count : Nat
  Income : Rat
  CPUCount : Nat
  GPUCount : Nat
  RAMSize : Nat
  deriving Repr, DecidableEq

/-- The zero value `PeerPoint{}`. -/
def PeerPoint.zero : PeerPoint :=
  { Lat := 0, Lon := 0, Count := 0, Income := 0
    CPUCount := 0, GPUCount := 0, RAMSize := 0 }

/-- A non-nil Go `map[string]PeerPoint`, as an association list. -/
abbrev Snapshot := List (String × PeerPoint)

/-- A Go `map[string]PeerPoint` variable, which may be nil. -/
abbrev GoMap := Option Snapshot

/-- Go map assignment `m[k] = v`: overwrite the entry for `k` or append it. -/
def mapInsert (m : Snapshot) (k : String) (v : PeerPoint) : Snapshot :=
  match m with
  | [] => [(k, v)]
  | (k0, v0) :: rest => if k0 = k then (k, v) :: rest else (k0, v0) :: mapInsert rest k v

/-- Go map read `m[k]`, as an option. -/
def mapLookup (m : Snapshot) (k : String) : Option PeerPoint :=
  match m with
  | [] => none
  | (k0, v0) :: rest => if k0 = k then some v0 else mapLookup rest k

/-- The double-buffer `cache` struct of map-proxy/main.go (mutex elided:
operations are modelled as atomic whole-state transitions, which is what the
mutex guarantees). -/
structure cache where
  green : GoMap
  blue : GoMap
  deriving DecidableEq

/-- `cache.update`: install into the nil slot, clear the other slot. -/
def cache.update (c : cache) (peers : GoMap) : cache :=
  if c.green = none then { green := peers, blue := none }
  else { green := none, blue := peers }

/-- `cache.get`: return the non-nil slot (blue, possibly nil, when green is nil). -/
def cache.get (c : cache) : GoMap :=
  if c.green ≠ none then c.green else c.blue

/-- `main` constructs the cache as `cache{green: peers}` from the initial load. -/
def cacheInit (peers : Snapshot) : cache :=
  { green := some peers, blue := none }

/-- The cache state reached from `cacheInit init` after the updates in `ops`
(each a completed non-nil snapshot, as produced by `loadPeersData`). -/
def runUpdates (init : Snapshot) (ops : List Snapshot) : cache :=
  ops.foldl (fun c s => c.update (some s)) (cacheInit init)

/-- One DWH deal as consumed by `loadDeals`: the benchmark counters
(`CPUCores`, `GPUCount`, `RAMSize`, Go `uint64`) and the `big.Int` price. -/
structure Deal where
  cpuCores : Nat
  gpuCount : Nat
  ramSize : Nat
  price : Int
  deriving Repr, DecidableEq

/-- Modulus of Go `uint64` arithmetic. -/
def U64 : Nat := 2 ^ 64

/-- One iteration of the deals loop in `loadDeals`: `Count += 1`,
`CPUCount += CPUCores` and `GPUCount += GPUCount` (wrapping uint64),
`RAMSize = RAMSize` (assignment, not accumulation), and the exact `big.Int`
income accumulation. -/
def dealStep (acc : PeerPoint × Int) (d : Deal) : PeerPoint × Int :=
  ({ acc.1 with
      Count := acc.1.Count + 1
      CPUCount := (acc.1.CPUCount + d.cpuCores) % U64
      GPUCount := (acc.1.GPUCount + d.gpuCount) % U64
      RAMSize := d.ramSize },
    acc.2 + d.price)

/-- The deals loop of `loadDeals`, started from `PeerPoint{}` and income 0. -/
def dealsFold (deals : List Deal) : PeerPoint × Int :=
  deals.foldl dealStep (PeerPoint.zero, 0)

/-- `params.Ether`: 10^18 wei per ether. -/
def etherDenom : Int := 10 ^ 18

/-- The pure body of `loadDeals` after a successful `GetDeals` call: fold the
deals, then `Income = income * 3600 / params.Ether` (the one normalization
step, exact here; the Go code converts to `big.Float` at this point). -/
def loadDealsPoint (deals : List Deal) : PeerPoint :=
  { (dealsFold deals).1 with
      Income := (((dealsFold deals).2 * 3600 : Int) : Rat) / ((etherDenom : Int) : Rat) }

/-- `loadDeals`: the DWH `GetDeals` call is an oracle from the supplier
address to its accepted deals; `none` models a failed query, in which case
`loadDeals` returns the error. -/
def loadDeals (dwhDeals : String → Option (List Deal)) (addr : String) : Option PeerPoint :=
  (dwhDeals addr).map loadDealsPoint

/-- A geoip `City` record, reduced to the fields the programs read. -/
structure GeoRec where
  lat : Rat
  lon : Rat
  cityName : String
  countryName : String
  deriving Repr, DecidableEq

/-- The zero-valued record that geoip2 `City` yields alongside an error. -/
def GeoRec.zero : GeoRec := { lat := 0, lon := 0, cityName := "", countryName := "" }

/-- One advertised server of a peer; `addr` is `srv.PublicAddr.Addr.Addr`. -/
structure Server where
  addr : String
  deriving Repr, DecidableEq

/-- One peer's directory state: its list of servers. -/
structure PeerState where
  servers : List Server
  deriving Repr, DecidableEq

/-- The rendezvous `Info` reply: directory keys of the form `"proto//0xADDR"`
mapped to peer states (the Go map is modelled as the listing the loop
iterates over). -/
structure RvInfo where
  state : List (String × PeerState)
  deriving Repr, DecidableEq

/-- The external collaborators of one map-proxy refresh cycle.  `rvInfo` is
the rendezvous `Info` reply (`none` = the top-level directory query failed),
`dwhDeals` the DWH deals per supplier address, `geoCity` the geoip lookup per
server address (`none` = lookup error), `ethKey` the composite
`common.HexToAddress(x).Hex()` key normalization. -/
structure Env where
  rvInfo : Option RvInfo
  dwhDeals : String → Option (List Deal)
  geoCity : String → Option GeoRec
  ethKey : String → String

/-- `strings.Split(s, "//")` on the character list of `s`: scan left to
right, cut at every occurrence of the two-character separator `//`. -/
def splitOnSlashSlash : List Char → List (List Char)
  | [] => [[]]
  | '/' :: '/' :: rest => [] :: splitOnSlashSlash rest
  | c :: rest =>
    match splitOnSlashSlash rest with
    | [] => [[c]]
    | h :: t => (c :: h) :: t

/-- `parts := strings.Split(addr, "//"); parts[1]`.  Directory keys have the
form `"proto//0xADDR"`; Go would panic on a missing index, the model
totalizes with `""`. -/
def splitPart1 (addr : String) : String :=
  String.mk ((splitOnSlashSlash addr.data).getD 1 [])

/-- The body of the inner server loop of `loadPeersData`: derive the peer key,
query the ledger (on error skip), query geoip (on error skip), else store the
located point under the peer key. -/
def processServer (env : Env) (acc : Snapshot) (addr : String) (srv : Server) : Snapshot :=
  let peerEth := env.ethKey (splitPart1 addr)
  match loadDeals env.dwhDeals peerEth with
  | none => acc
  | some point =>
    match env.geoCity srv.addr with
    | none => acc
    | some rec => mapInsert acc peerEth { point with Lat := rec.lat, Lon := rec.lon }

/-- `loadPeersData` (current revision): fail the cycle iff the rendezvous
`Info` query fails; otherwise fold every peer's servers into the snapshot. -/
def loadPeersData (env : Env) : Option Snapshot :=
  match env.rvInfo with
  | none => none
  | some info =>
    some (info.state.foldl
      (fun acc entry => entry.2.servers.foldl (fun a srv => processServer env a entry.1 srv) acc)
      [])

/-- One tick of the refresh loop in `main`: on a failed cycle log and
`continue` (cache untouched); on success install the new snapshot. -/
def tickStep (env : Env) (c : cache) : cache :=
  match loadPeersData env with
  | none => c
  | some peers => c.update (some peers)

/-- The refresh loop over a sequence of tick environments. -/
def runTicks (envs : List Env) (c : cache) : cache :=
  envs.foldl (fun c e => tickStep e c) c

/-- JSON values, for the publish endpoint's `json.Marshal` output. -/
inductive Json where
  | null : Json
  | str : String → Json
  | num : Rat → Json
  | obj : List (String × Json) → Json

/-- The JSON object `json.Marshal` produces for one `PeerPoint`. -/
def PeerPoint.toJson (p : PeerPoint) : Json :=
  Json.obj [("lat", Json.num p.Lat), ("lon", Json.num p.Lon),
            ("count", Json.num p.Count), ("income", Json.num p.Income),
            ("cpu_count", Json.num p.CPUCount), ("gpu_count", Json.num p.GPUCount),
            ("ram_size", Json.num p.RAMSize)]

/-- `encoding/json`: a nil map marshals to JSON `null`, a non-nil map to an
object with one member per entry. -/
def marshalSnapshot : GoMap → Json
  | none => Json.null
  | some m => Json.obj (m.map fun e => (e.1, e.2.toJson))

/-- The publish handler: marshal `data.get()` and write it (status 200). -/
def handleRequest (c : cache) : Json :=
  marshalSnapshot c.get

/-- External collaborators of the rv-mon loops: the geoip lookup and the
external `geohash.Encode`. -/
structure RvMonEnv where
  geoCity : String → Option GeoRec
  geohashEncode : Rat → Rat → String

/-- `pointCounters`: geohash to count. -/
abbrev Counters := List (String × Nat)

/-- `nameCache`: geohash to display name. -/
abbrev Names := List (String × String)

/-- Go `pointCounters[h] += 1` with the existence check. -/
def countersBump (m : Counters) (k : String) : Counters :=
  match m with
  | [] => [(k, 1)]
  | (k0, n) :: rest => if k0 = k then (k0, n + 1) :: rest else (k0, n) :: countersBump rest k

/-- Go `nameCache[h] = name`. -/
def namesInsert (m : Names) (k : String) (v : String) : Names :=
  match m with
  | [] => [(k, v)]
  | (k0, v0) :: rest => if k0 = k then (k, v) :: rest else (k0, v0) :: namesInsert rest k v

/-- The body of the server loop of `rv-mon/main.go`: on a geoip error the
loop only logs and falls through, so it proceeds with the zero-valued record
(the peer is counted under `geohash.Encode(0, 0)`). -/
def rvMonStep (env : RvMonEnv) (st : Counters × Names) (srv : Server) : Counters × Names :=
  let rec0 := (env.geoCity srv.addr).getD GeoRec.zero
  let pointEncoded := env.geohashEncode rec0.lat rec0.lon
  let name := if rec0.cityName.length > 0 then rec0.cityName else rec0.countryName
  (countersBump st.1 pointEncoded, namesInsert st.2 pointEncoded name)

/-- The body of the server loop of the unnamed rv-mon variant
(src/unnamed/part_000): identical except that a geoip error `continue`s,
skipping the peer. -/
def rvMonSkipStep (env : RvMonEnv) (st : Counters × Names) (srv : Server) : Counters × Names :=
  match env.geoCity srv.addr with
  | none => st
  | some rec0 =>
    let pointEncoded := env.geohashEncode rec0.lat rec0.lon
    let name := if rec0.cityName.length > 0 then rec0.cityName else rec0.countryName
    (countersBump st.1 pointEncoded, namesInsert st.2 pointEncoded name)

/-! Concrete instances used in counterexamples and witnesses. -/

/-- A sample deal: 2 cpu cores, 1 gpu, 4 ram, price 100 wei per second. -/
def dealOne : Deal := { cpuCores := 2, gpuCount := 1, ramSize := 4, price := 100 }

/-- Two deals differing only in ram size. -/
def dealRam1 : Deal := { cpuCores := 0, gpuCount := 0, ramSize := 1, price := 0 }

def dealRam2 : Deal := { cpuCores := 0, gpuCount := 0, ramSize := 2, price := 0 }

/-- A list with one deal of positive price, for the income witness. -/
def dealsPos : List Deal := [{ cpuCores := 1, gpuCount := 2, ramSize := 3, price := 5 }]

def geoA : GeoRec := { lat := 1, lon := 1, cityName := "X", countryName := "Y" }

def geoB : GeoRec := { lat := 3, lon := 4, cityName := "B", countryName := "C" }

def geoX : GeoRec := { lat := 1, lon := 1, cityName := "X", countryName := "Y" }

def geoY : GeoRec := { lat := 2, lon := 2, cityName := "X", countryName := "Y" }

def srvX : Server := { addr := "1.1.1.1" }

def srvY : Server := { addr := "2.2.2.2" }

/-- Geo oracle mapping srvX's address to `geoX` and everything else to `geoY`. -/
def geoByIp : String → Option GeoRec :=
  fun ip => if ip = "1.1.1.1" then some geoX else some geoY

/-- Two one-server peers whose addresses both resolve to the same point `geoA`. -/
def envSameGeo : Env :=
  { rvInfo := some ⟨[("tcp//p1", ⟨[srvX]⟩), ("tcp//p2", ⟨[srvY]⟩)]⟩
    dwhDeals := fun _ => some [dealOne]
    geoCity := fun _ => some geoA
    ethKey := id }

/-- The record `loadPeersData` stores for each of the two peers of `envSameGeo`. -/
def ptSame : PeerPoint :=
  { loadDealsPoint [dealOne] with Lat := geoA.lat, Lon := geoA.lon }

/-- One peer advertising two servers, processed in the order `[srvX, srvY]`. -/
def envOrderA : Env :=
  { rvInfo := some ⟨[("tcp//p1", ⟨[srvX, srvY]⟩)]⟩
    dwhDeals := fun _ => some [dealOne]
    geoCity := geoByIp
    ethKey := id }

/-- The same peer set as `envOrderA`, servers in the order `[srvY, srvX]`. -/
def envOrderB : Env :=
  { rvInfo := some ⟨[("tcp//p1", ⟨[srvY, srvX]⟩)]⟩
    dwhDeals := fun _ => some [dealOne]
    geoCity := geoByIp
    ethKey := id }

/-- A cycle whose top-level directory query fails. -/
def envFail : Env :=
  { rvInfo := none
    dwhDeals := fun _ => none
    geoCity := fun _ => none
    ethKey := id }

/-- Two peers; the ledger query fails for peer `p1` and succeeds for `p2`,
whose server's address geolocates to `geoB`. -/
def envOneFail : Env :=
  { rvInfo := some ⟨[("tcp//p1", ⟨[srvX]⟩), ("tcp//p2", ⟨[srvY]⟩)]⟩
    dwhDeals := fun a => if a = "p2" then some [dealOne] else none
    geoCity := fun ip => if ip = "2.2.2.2" then some geoB else none
    ethKey := id }

/-- A map-proxy cycle in which geolocation fails for the only peer's server. -/
def envGeoFailProxy : Env :=
  { rvInfo := some ⟨[("tcp//p1", ⟨[⟨"9.9.9.9"⟩]⟩)]⟩
    dwhDeals := fun _ => some [dealOne]
    geoCity := fun _ => none
    ethKey := id }

/-- An rv-mon run in which every geoip lookup fails; the external geohash
encoder maps every coordinate pair (in particular (0,0)) to one bucket. -/
def rvEnvGeoFail : RvMonEnv :=
  { geoCity := fun _ => none
    geohashEncode := fun _ _ => "s00000000000" }

/-- The zero value of the cache: no update has ever succeeded. -/
def cacheZero : cache := { green := none, blue := none }

/-! Helper lemmas. -/

/-- Reading an updated map: the inserted key returns the new value, every
other key is unchanged. -/
theorem mapLookup_mapInsert (m : Snapshot) (k : String) (v : PeerPoint) (q : String) :
    mapLookup (mapInsert m k v) q = if k = q then some v else mapLookup m q := by
  induction m with
  | nil => simp [mapInsert, mapLookup]
  | cons e rest ih =>
    obtain ⟨k0, v0⟩ := e
    by_cases h1 : k0 = k
    · subst h1
      by_cases h2 : k0 = q <;> simp [mapInsert, mapLookup, h2]
    · by_cases h2 : k0 = q
      · subst h2
        have h3 : ¬ k = k0 := fun h => h1 h.symm
        simp [mapInsert, mapLookup, h1, h3]
      · simp [mapInsert, mapLookup, h1, h2, ih]

/-- Re-inserting the same entry is a no-op. -/
theorem mapInsert_idem (m : Snapshot) (k : String) (v : PeerPoint) :
    mapInsert (mapInsert m k v) k v = mapInsert m k v := by
  induction m with
  | nil => simp [mapInsert]
  | cons e rest ih =>
    obtain ⟨k0, v0⟩ := e
    by_cases h : k0 = k
    · subst h; simp [mapInsert]
    · simp [mapInsert, h, ih]

/-- The last element of a list, or a default for the empty list. -/
def lastD : List α → α → α
  | [], d => d
  | a :: l, _ => lastD l a

/-- `lastD` of a list extended on the right. -/
theorem lastD_concat (l : List α) (a d : α) : lastD (l ++ [a]) d = a := by
  induction l generalizing d with
  | nil => rfl
  | cons b l ih => exact ih b

/-- `lastD` picks the default or an element of the list. -/
theorem lastD_mem (l : List α) (d : α) : lastD l d ∈ d :: l := by
  induction l generalizing d with
  | nil => simp [lastD]
  | cons a l ih =>
    show lastD l a ∈ d :: a :: l
    exact List.mem_cons_of_mem d (ih a)

/-- After `update (some s)` the cache serves `s`. -/
theorem cache.update_get (c : cache) (s : Snapshot) :
    (c.update (some s)).get = some s := by
  by_cases h : c.green = none <;> simp [cache.update, cache.get, h]

/-- `update` always leaves one slot nil. -/
theorem cache.update_oneNone (c : cache) (p : GoMap) :
    (c.update p).green = none ∨ (c.update p).blue = none := by
  by_cases h : c.green = none
  · right; simp [cache.update, h]
  · left; simp [cache.update, h]

/-- The deals loop of `loadDeals`, characterized: counts the deals, wraps the
uint64 sums, keeps the last ram size, and sums the prices exactly. -/
theorem dealStep_foldl_spec (l : List Deal) (p : PeerPoint) (i : Int)
    (hc : p.CPUCount < U64) (hg : p.GPUCount < U64) :
    (l.foldl dealStep (p, i)).1.Count = p.Count + l.length
    ∧ (l.foldl dealStep (p, i)).1.CPUCount = (p.CPUCount + (l.map Deal.cpuCores).sum) % U64
    ∧ (l.foldl dealStep (p, i)).1.GPUCount = (p.GPUCount + (l.map Deal.gpuCount).sum) % U64
    ∧ (l.foldl dealStep (p, i)).1.RAMSize = lastD (l.map Deal.ramSize) p.RAMSize
    ∧ (l.foldl dealStep (p, i)).2 = i + (l.map Deal.price).sum := by
  induction l generalizing p i with
  | nil =>
    simp [Nat.mod_eq_of_lt hc, Nat.mod_eq_of_lt hg, lastD]
  | cons d rest ih =>
    have hU : 0 < U64 := by norm_num [U64]
    have h1 : (p.CPUCount + d.cpuCores) % U64 < U64 := Nat.mod_lt _ hU
    have h2 : (p.GPUCount + d.gpuCount) % U64 < U64 := Nat.mod_lt _ hU
    have h := ih (dealStep (p, i) d).1 (dealStep (p, i) d).2 h1 h2
    obtain ⟨hC, hCPU, hGPU, hRAM, hI⟩ := h
    refine ⟨?_, ?_, ?_, ?_, ?_⟩
    · simp only [List.foldl_cons] at hC ⊢
      rw [hC]; simp [dealStep]; omega
    · simp only [List.foldl_cons] at hCPU ⊢
      rw [hCPU]; simp [dealStep, Nat.mod_add_mod, Nat.add_assoc]
    · simp only [List.foldl_cons] at hGPU ⊢
      rw [hGPU]; simp [dealStep, Nat.mod_add_mod, Nat.add_assoc]
    · simp only [List.foldl_cons] at hRAM ⊢
      rw [hRAM]; simp [dealStep, lastD]
    · simp only [List.foldl_cons] at hI ⊢
      rw [hI]; simp [dealStep, Int.add_assoc]

/-! Claim theorems. -/

/-- Claim C1: starting from a cache initialized with one complete snapshot,
after any sequence of updates `get` returns exactly the most recently
installed complete snapshot — the constructor argument or the argument of
some prior update, never a mixture of two — and immediately after
`update s`, `get` returns `s`. -/
theorem C1_get_returns_installed_snapshot (init : Snapshot) (ops : List Snapshot)
    (c : cache) (s : Snapshot) :
    (runUpdates init ops).get = some (lastD ops init)
    ∧ lastD ops init ∈ init :: ops
    ∧ (c.update (some s)).get = some s := by
  refine ⟨?_, lastD_mem ops init, cache.update_get c s⟩
  induction ops using List.reverseRecOn with
  | nil => simp [runUpdates, cacheInit, cache.get, lastD]
  | append_singleton l s ih =>
    have h1 : runUpdates init (l ++ [s]) = (runUpdates init l).update (some s) := by
      simp [runUpdates, List.foldl_append]
    rw [h1, lastD_concat, cache.update_get]

/-- Claim C10: after `update s` exactly one of the two slots holds `s` and the
other is reset to nil, so the superseded snapshot is never retained; every
state reachable from the initial one-snapshot cache has a nil slot, and `get`
returns the green slot when it is non-nil and the blue slot otherwise. -/
theorem C10_update_slot_discipline (init : Snapshot) (ops : List Snapshot)
    (c : cache) (s : Snapshot) :
    (((c.update (some s)).green = some s ∧ (c.update (some s)).blue = none)
      ∨ ((c.update (some s)).blue = some s ∧ (c.update (some s)).green = none))
    ∧ (c.update (some s)).get = some s
    ∧ ((runUpdates init ops).green = none ∨ (runUpdates init ops).blue = none)
    ∧ ((runUpdates init ops).green ≠ none →
        (runUpdates init ops).get = (runUpdates init ops).green)
    ∧ ((runUpdates init ops).green = none →
        (runUpdates init ops).get = (runUpdates init ops).blue) := by
  refine ⟨?_, cache.update_get c s, ?_, ?_, ?_⟩
  · by_cases h : c.green = none
    · left; simp [cache.update, h]
    · right; simp [cache.update, h]
  · induction ops using List.reverseRecOn with
    | nil => right; simp [runUpdates, cacheInit]
    | append_singleton l s ih =>
      have h1 : runUpdates init (l ++ [s]) = (runUpdates init l).update (some s) := by
        simp [runUpdates, List.foldl_append]
      rw [h1]; exact cache.update_oneNone _ _
  · intro h; simp [cache.get, h]
  · intro h; simp [cache.get, h]

/-- Claim C3: when the top-level directory query of a cycle fails, the tick
leaves the cache unchanged (readers still get the last good snapshot) and the
loop goes on to the following ticks instead of exiting. -/
theorem C3_directory_failure_keeps_cycle_alive (env : Env) (c : cache) (rest : List Env)
    (h : env.rvInfo = none) :
    tickStep env c = c
    ∧ (tickStep env c).get = c.get
    ∧ runTicks (env :: rest) c = runTicks rest c := by
  have hl : loadPeersData env = none := by simp [loadPeersData, h]
  refine ⟨?_, ?_, ?_⟩ <;> simp [tickStep, runTicks, hl]

/-- Witness for C3 at the concrete failing environment `envFail`. -/
theorem C3_witness :
    envFail.rvInfo = none
    ∧ (tickStep envFail (cacheInit []) = cacheInit []
        ∧ (tickStep envFail (cacheInit [])).get = (cacheInit []).get
        ∧ runTicks [envFail] (cacheInit []) = runTicks [] (cacheInit [])) :=
  ⟨rfl, C3_directory_failure_keeps_cycle_alive envFail (cacheInit []) [] rfl⟩

/-- Claim C7 counterexample: on the never-updated cache `get` returns the nil
snapshot and the publish handler serializes it to JSON `null`, which is not
the empty JSON mapping the claim promises. -/
theorem C7_counterexample :
    cacheZero.get = none
    ∧ handleRequest cacheZero = Json.null
    ∧ Json.null ≠ Json.obj [] := by
  refine ⟨rfl, rfl, fun h => Json.noConfusion h⟩

/-- Claim C7 amended: `get` on a never-updated cache returns the nil (absent)
snapshot rather than an error, and the publish endpoint responds with the
JSON serialization of nil — JSON `null`, still a 200-response, not an error;
an empty JSON mapping is produced exactly when the installed snapshot is an
empty non-nil map. -/
theorem C7_amended_empty_cache (m : Snapshot) :
    cacheZero.get = none
    ∧ handleRequest cacheZero = Json.null
    ∧ handleRequest (cacheInit []) = Json.obj []
    ∧ handleRequest (cacheInit m) = Json.obj (m.map fun e => (e.1, e.2.toJson)) := by
  refine ⟨rfl, rfl, rfl, ?_⟩
  simp [handleRequest, cacheInit, cache.get, marshalSnapshot]

/-- Claim C2 counterexample: in `envSameGeo` both peers resolve to the single
point `geoA`, yet the snapshot holds two separate records keyed by the peer
addresses, each with its own per-peer count of 1 — not one combined record
per geographic bucket. -/
theorem C2_counterexample :
    loadPeersData envSameGeo = some [("p1", ptSame), ("p2", ptSame)]
    ∧ ((loadPeersData envSameGeo).getD []).length = 2
    ∧ ((((loadPeersData envSameGeo).getD []).map fun e => (e.2.Lat, e.2.Lon)).dedup).length = 1
    ∧ ptSame.Count = 1 ∧ ptSame.CPUCount = 2 ∧ ptSame.GPUCount = 1
    ∧ (2 : Nat) ≠ 1 :=
  ⟨rfl, rfl, by decide, rfl, rfl, rfl, by decide⟩

/-- Claim C2 amended: two resolved peers are kept as separate records keyed
by their peer Ethereum addresses even when their locations coincide exactly;
every total is per-peer, from that peer's own deals, with no cross-peer
geographic merging. -/
theorem C2_amended_separate_records (env : Env) (a1 a2 k1 k2 : String)
    (s1 s2 : Server) (d1 d2 : List Deal) (g : GeoRec)
    (hinfo : env.rvInfo = some ⟨[(a1, ⟨[s1]⟩), (a2, ⟨[s2]⟩)]⟩)
    (hk1 : env.ethKey (splitPart1 a1) = k1)
    (hk2 : env.ethKey (splitPart1 a2) = k2)
    (hne : k1 ≠ k2)
    (hd1 : env.dwhDeals k1 = some d1)
    (hd2 : env.dwhDeals k2 = some d2)
    (hg1 : env.geoCity s1.addr = some g)
    (hg2 : env.geoCity s2.addr = some g) :
    loadPeersData env
      = some [(k1, { loadDealsPoint d1 with Lat := g.lat, Lon := g.lon }),
              (k2, { loadDealsPoint d2 with Lat := g.lat, Lon := g.lon })] := by
  simp [loadPeersData, hinfo, processServer, loadDeals, hk1, hk2, hd1, hd2,
    hg1, hg2, mapInsert, hne]

/-- Witness for the amended C2 at the concrete environment `envSameGeo`. -/
theorem C2_amended_witness :
    envSameGeo.rvInfo = some ⟨[("tcp//p1", ⟨[srvX]⟩), ("tcp//p2", ⟨[srvY]⟩)]⟩
    ∧ ("p1" : String) ≠ "p2"
    ∧ loadPeersData envSameGeo
      = some [("p1", { loadDealsPoint [dealOne] with Lat := geoA.lat, Lon := geoA.lon }),
              ("p2", { loadDealsPoint [dealOne] with Lat := geoA.lat, Lon := geoA.lon })] :=
  ⟨rfl, by decide,
    C2_amended_separate_records envSameGeo "tcp//p1" "tcp//p2" "p1" "p2" srvX srvY
      [dealOne] [dealOne] geoA rfl rfl rfl (by decide) rfl rfl rfl rfl⟩

/-- Claim C4 counterexample: over two deals with ram sizes 1 and 2 the
resulting RAMSize is 2 (the last deal's value), not the sum 3: the code
assigns `p.RAMSize = ...` instead of accumulating it. -/
theorem C4_counterexample :
    (loadDealsPoint [dealRam1, dealRam2]).RAMSize = 2
    ∧ ([dealRam1, dealRam2].map Deal.ramSize).sum = 3
    ∧ (2 : Nat) ≠ 3 :=
  ⟨rfl, rfl, by decide⟩

/-- Claim C4 amended: within one cycle a peer's cpu and gpu totals are the
(wrapping uint64) sums over its returned deals and the deal count is the
number of deals, but the memory field is the last deal's ram size, not a
sum. -/
theorem C4_amended_resource_totals (deals : List Deal) :
    (loadDealsPoint deals).CPUCount = (deals.map Deal.cpuCores).sum % U64
    ∧ (loadDealsPoint deals).GPUCount = (deals.map Deal.gpuCount).sum % U64
    ∧ (loadDealsPoint deals).RAMSize = lastD (deals.map Deal.ramSize) 0
    ∧ (loadDealsPoint deals).Count = deals.length := by
  have hU : (0 : Nat) < U64 := by norm_num [U64]
  obtain ⟨hC, hCPU, hGPU, hRAM, hI⟩ :=
    dealStep_foldl_spec deals PeerPoint.zero 0 hU hU
  refine ⟨?_, ?_, ?_, ?_⟩ <;>
    simp [loadDealsPoint, dealsFold, PeerPoint.zero] at hC hCPU hGPU hRAM ⊢ <;>
    simp [hC, hCPU, hGPU, hRAM]

/-- Claim C5: in a cycle where the ledger query fails for one peer, that peer
is skipped entirely — no partial record under its key — while the other
peer, whose ledger and geo lookups succeed, appears with its full record,
and the cycle still completes with a snapshot. -/
theorem C5_failed_peer_skipped (env : Env) (a1 a2 k1 k2 : String)
    (s1 s2 : Server) (d2 : List Deal) (g2 : GeoRec)
    (hinfo : env.rvInfo = some ⟨[(a1, ⟨[s1]⟩), (a2, ⟨[s2]⟩)]⟩)
    (hk1 : env.ethKey (splitPart1 a1) = k1)
    (hk2 : env.ethKey (splitPart1 a2) = k2)
    (hne : k1 ≠ k2)
    (hd1 : env.dwhDeals k1 = none)
    (hd2 : env.dwhDeals k2 = some d2)
    (hg2 : env.geoCity s2.addr = some g2) :
    loadPeersData env
      = some [(k2, { loadDealsPoint d2 with Lat := g2.lat, Lon := g2.lon })]
    ∧ mapLookup ((loadPeersData env).getD []) k1 = none
    ∧ mapLookup ((loadPeersData env).getD []) k2
      = some { loadDealsPoint d2 with Lat := g2.lat, Lon := g2.lon } := by
  have h1 : loadPeersData env
      = some [(k2, { loadDealsPoint d2 with Lat := g2.lat, Lon := g2.lon })] := by
    simp [loadPeersData, hinfo, processServer, loadDeals, hk1, hk2, hd1, hd2,
      hg2, mapInsert]
  have h2 : ¬ (k2 = k1) := fun h => hne h.symm
  refine ⟨h1, ?_, ?_⟩ <;> simp [h1, mapLookup, h2]

/-- Witness for C5 at the concrete environment `envOneFail`. -/
theorem C5_witness :
    envOneFail.rvInfo = some ⟨[("tcp//p1", ⟨[srvX]⟩), ("tcp//p2", ⟨[srvY]⟩)]⟩
    ∧ envOneFail.dwhDeals "p1" = none
    ∧ ("p1" : String) ≠ "p2"
    ∧ (loadPeersData envOneFail
        = some [("p2", { loadDealsPoint [dealOne] with Lat := geoB.lat, Lon := geoB.lon })]
      ∧ mapLookup ((loadPeersData envOneFail).getD []) "p1" = none
      ∧ mapLookup ((loadPeersData envOneFail).getD []) "p2"
        = some { loadDealsPoint [dealOne] with Lat := geoB.lat, Lon := geoB.lon }) :=
  ⟨rfl, rfl, by decide,
    C5_failed_peer_skipped envOneFail "tcp//p1" "tcp//p2" "p1" "p2" srvX srvY
      [dealOne] geoB rfl rfl rfl (by decide) rfl rfl rfl⟩

/-- Claim C6 counterexample: for the same kind of failing geolocation lookup,
map-proxy drops the peer from the snapshot while rv-mon counts it (under the
geohash of the zero-valued record) and the unnamed variant skips it — the
program does not apply one policy consistently. -/
theorem C6_counterexample :
    loadPeersData envGeoFailProxy = some []
    ∧ (rvMonStep rvEnvGeoFail ([], []) ⟨"9.9.9.9"⟩).1 = [("s00000000000", 1)]
    ∧ rvMonSkipStep rvEnvGeoFail ([], []) ⟨"9.9.9.9"⟩ = ([], [])
    ∧ ([("s00000000000", 1)] : Counters) ≠ [] :=
  ⟨rfl, rfl, rfl, by decide⟩

/-- Claim C6 amended: the geo-failure policy differs per component. map-proxy
always skips a peer whose geolocation fails, and so does the unnamed rv-mon
variant, but rv-mon itself always includes such a peer, counting it under
the geohash of the zero coordinates. -/
theorem C6_amended_policies (env : Env) (acc : Snapshot) (addr : String) (srv : Server)
    (renv : RvMonEnv) (st : Counters × Names) (srv2 srv3 : Server)
    (hg : env.geoCity srv.addr = none)
    (hg2 : renv.geoCity srv2.addr = none)
    (hg3 : renv.geoCity srv3.addr = none) :
    processServer env acc addr srv = acc
    ∧ (rvMonStep renv st srv2).1 = countersBump st.1 (renv.geohashEncode 0 0)
    ∧ rvMonSkipStep renv st srv3 = st := by
  refine ⟨?_, ?_, ?_⟩
  · rcases hld : loadDeals env.dwhDeals (env.ethKey (splitPart1 addr)) with - | point <;>
      simp [processServer, hld, hg]
  · simp [rvMonStep, hg2, GeoRec.zero]
  · simp [rvMonSkipStep, hg3]

/-- Witness for the amended C6 at the concrete failing lookups. -/
theorem C6_amended_witness :
    envGeoFailProxy.geoCity (Server.mk "9.9.9.9").addr = none
    ∧ rvEnvGeoFail.geoCity (Server.mk "9.9.9.9").addr = none
    ∧ (processServer envGeoFailProxy [] "tcp//p1" (Server.mk "9.9.9.9") = []
      ∧ (rvMonStep rvEnvGeoFail ([], []) (Server.mk "9.9.9.9")).1
        = countersBump [] (rvEnvGeoFail.geohashEncode 0 0)
      ∧ rvMonSkipStep rvEnvGeoFail ([], []) (Server.mk "9.9.9.9") = ([], [])) :=
  ⟨rfl, rfl,
    C6_amended_policies envGeoFailProxy [] "tcp//p1" (Server.mk "9.9.9.9")
      rvEnvGeoFail ([], []) (Server.mk "9.9.9.9") (Server.mk "9.9.9.9") rfl rfl rfl⟩

/-- Claim C8: the per-peer income is the exact arbitrary-precision integer
sum of the deal prices times the 3600 seconds-per-hour constant, divided by
the 10^18 currency denomination only at the final normalization step, and it
is non-negative whenever all prices are. -/
theorem C8_income_exact_and_nonneg (deals : List Deal)
    (h : ∀ d ∈ deals, 0 ≤ d.price) :
    (loadDealsPoint deals).Income
      = (((deals.map Deal.price).sum * 3600 : Int) : Rat) / ((etherDenom : Int) : Rat)
    ∧ 0 ≤ (loadDealsPoint deals).Income := by
  have hU : (0 : Nat) < U64 := by norm_num [U64]
  obtain ⟨-, -, -, -, hI⟩ := dealStep_foldl_spec deals PeerPoint.zero 0 hU hU
  have hI2 : (dealsFold deals).2 = (deals.map Deal.price).sum := by
    simp only [dealsFold]; rw [hI]; simp
  have hIncome : (loadDealsPoint deals).Income
      = (((deals.map Deal.price).sum * 3600 : Int) : Rat) / ((etherDenom : Int) : Rat) := by
    simp [loadDealsPoint, hI2]
  refine ⟨hIncome, ?_⟩
  rw [hIncome]
  have hs : (0 : Int) ≤ (deals.map Deal.price).sum := by
    apply List.sum_nonneg
    intro x hx
    obtain ⟨d, hd, rfl⟩ := List.mem_map.1 hx
    exact h d hd
  apply div_nonneg
  · exact_mod_cast mul_nonneg hs (by norm_num)
  · norm_num [etherDenom]

/-- Witness for C8 at the one-deal list `dealsPos`. -/
theorem C8_witness :
    (∀ d ∈ dealsPos, 0 ≤ d.price)
    ∧ ((loadDealsPoint dealsPos).Income
        = (((dealsPos.map Deal.price).sum * 3600 : Int) : Rat) / ((etherDenom : Int) : Rat)
      ∧ 0 ≤ (loadDealsPoint dealsPos).Income) :=
  ⟨by decide, C8_income_exact_and_nonneg dealsPos (by decide)⟩

/-- Claim C9 counterexample: `envOrderA` and `envOrderB` present the same
single peer with the same set of two servers, in the two possible orders;
the resulting records differ (the last processed server's location wins), so
the merge is not commutative over input order. -/
theorem C9_counterexample :
    mapLookup ((loadPeersData envOrderA).getD []) "p1"
      = some { loadDealsPoint [dealOne] with Lat := geoY.lat, Lon := geoY.lon }
    ∧ mapLookup ((loadPeersData envOrderB).getD []) "p1"
      = some { loadDealsPoint [dealOne] with Lat := geoX.lat, Lon := geoX.lon }
    ∧ ({ loadDealsPoint [dealOne] with Lat := geoY.lat, Lon := geoY.lon } : PeerPoint)
      ≠ { loadDealsPoint [dealOne] with Lat := geoX.lat, Lon := geoX.lon } := by
  refine ⟨rfl, rfl, fun h => ?_⟩
  have h2 : geoY.lat = geoX.lat := congrArg PeerPoint.Lat h
  simp [geoX, geoY] at h2

/-- Claim C9 amended: the merge is a last-writer-wins overwrite keyed by the
peer address: it is idempotent, and insertions for distinct keys commute (the
snapshots agree on every lookup), but for records sharing one key the later
insertion overwrites, so processing order matters there. -/
theorem C9_amended_insert_order (m : Snapshot) (k1 k2 q : String)
    (v1 v2 : PeerPoint) (hne : k1 ≠ k2) :
    mapLookup (mapInsert (mapInsert m k1 v1) k2 v2) q
      = mapLookup (mapInsert (mapInsert m k2 v2) k1 v1) q
    ∧ mapInsert (mapInsert m k1 v1) k1 v1 = mapInsert m k1 v1 := by
  refine ⟨?_, mapInsert_idem m k1 v1⟩
  rw [mapLookup_mapInsert, mapLookup_mapInsert, mapLookup_mapInsert, mapLookup_mapInsert]
  split_ifs with h1 h2 <;> try rfl
  exact absurd (h2.trans h1.symm) hne

/-- Witness for the amended C9 at concrete keys and values. -/
theorem C9_amended_witness :
    ("a" : String) ≠ "b"
    ∧ (mapLookup (mapInsert (mapInsert ([] : Snapshot) "a" PeerPoint.zero) "b" PeerPoint.zero) "a"
        = mapLookup (mapInsert (mapInsert ([] : Snapshot) "b" PeerPoint.zero) "a" PeerPoint.zero) "a"
      ∧ mapInsert (mapInsert ([] : Snapshot) "a" PeerPoint.zero) "a" PeerPoint.zero
        = mapInsert ([] : Snapshot) "a" PeerPoint.zero) :=
  ⟨by decide,
    C9_amended_insert_order [] "a" "b" "a" PeerPoint.zero PeerPoint.zero (by decide)⟩

end SonmMon
